import Mathlib

/-!
Verification of brynet's HTTP/1.1 serializer
(`include/brynet/net/http/HttpFormat.hpp`).

Modelling conventions:
* A C++ `std::string` is a byte string; it is modelled as a Lean `String`
  in which every `Char` stands for one byte, so `String.length` is the byte
  count (`std::string::size()`), and `std::to_string(n)` is `toString n`
  (decimal digits).
* `std::map<std::string, std::string>` is modelled as an association list
  kept strictly sorted by key under the string order (`std::less`,
  byte-wise lexicographic); `mHeadField[field] = value` inserts in order or
  overwrites the existing key.
* `enum class` values are modelled by their underlying integral values
  where the code compares or casts them.
-/

namespace Brynet

/-- `mHeadField[field] = value` on a `std::map<std::string, std::string>`:
ordered insertion into the key-sorted association list, overwriting the
value when the key is already present. -/
def hmapInsert : List (String × String) → String → String → List (String × String)
  | [], field, value => [(field, value)]
  | (k, v) :: rest, field, value =>
    if field < k then (field, value) :: (k, v) :: rest
    else if field = k then (field, value) :: rest
    else (k, v) :: hmapInsert rest field value

/-- The header-emission loop shared by `HttpRequest::getResult` and
`HttpResponse::getResult`: for each map entry in order, emit
`Field: Value\r\n`. -/
def headerLines : List (String × String) → String
  | [] => ""
  | (k, v) :: rest => k ++ ": " ++ v ++ "\r\n" ++ headerLines rest

/-- `class HttpQueryParameter`: a single accumulated string member. -/
structure HttpQueryParameter where
  mParameter : String
deriving DecidableEq

/-- Default construction: `mParameter` is the empty string. -/
def HttpQueryParameter.init : HttpQueryParameter := ⟨""⟩

/-- `HttpQueryParameter::add(k, v)`: if the accumulator is non-empty append
`"&"`, then append `k`, `"="`, `v`. -/
def HttpQueryParameter.add (p : HttpQueryParameter) (k v : String) : HttpQueryParameter :=
  ⟨(if p.mParameter.isEmpty then p.mParameter else p.mParameter ++ "&") ++ k ++ "=" ++ v⟩

/-- `HttpQueryParameter::getResult()`: returns the accumulator. -/
def HttpQueryParameter.getResult (p : HttpQueryParameter) : String :=
  p.mParameter

/-- `enum class HTTP_METHOD` with its six enumerators (the five methods and
the `HTTP_METHOD_MAX` sentinel). -/
inductive HTTP_METHOD where
  | HTTP_METHOD_HEAD
  | HTTP_METHOD_GET
  | HTTP_METHOD_POST
  | HTTP_METHOD_PUT
  | HTTP_METHOD_DELETE
  | HTTP_METHOD_MAX
deriving DecidableEq

/-- The underlying integral value of each `HTTP_METHOD` enumerator
(first enumerator 0, consecutive). -/
def HTTP_METHOD.underlying : HTTP_METHOD → Nat
  | .HTTP_METHOD_HEAD => 0
  | .HTTP_METHOD_GET => 1
  | .HTTP_METHOD_POST => 2
  | .HTTP_METHOD_PUT => 3
  | .HTTP_METHOD_DELETE => 4
  | .HTTP_METHOD_MAX => 5

/-- The runtime check in `HttpRequest::setMethod`:
`assert(mMethod > HTTP_METHOD::HTTP_METHOD_HEAD && mMethod < HTTP_METHOD::HTTP_METHOD_MAX)`
(`enum class` comparison is comparison of the underlying values). -/
def setMethodAssertion (m : HTTP_METHOD) : Bool :=
  decide (HTTP_METHOD.underlying .HTTP_METHOD_HEAD < m.underlying)
    && decide (m.underlying < HTTP_METHOD.underlying .HTTP_METHOD_MAX)

/-- The guard in `HttpRequest::getResult`:
`mMethod >= HTTP_METHOD::HTTP_METHOD_HEAD && mMethod < HTTP_METHOD::HTTP_METHOD_MAX`. -/
def methodGuard (m : HTTP_METHOD) : Bool :=
  decide (HTTP_METHOD.underlying .HTTP_METHOD_HEAD ≤ m.underlying)
    && decide (m.underlying < HTTP_METHOD.underlying .HTTP_METHOD_MAX)

/-- The static `HttpMethodString` array in `HttpRequest::getResult`. -/
def HttpMethodString : List String := ["HEAD", "GET", "POST", "PUT", "DELETE"]

/-- `class HttpRequest`: its five data members. -/
structure HttpRequest where
  mUrl : String
  mQuery : String
  mBody : String
  mMethod : HTTP_METHOD
  mHeadField : List (String × String)
deriving DecidableEq

/-- `HttpRequest::setMethod(protocol)`: stores the method (the runtime
assertion it performs is `setMethodAssertion`). -/
def HttpRequest.setMethod (r : HttpRequest) (protocol : HTTP_METHOD) : HttpRequest :=
  { r with mMethod := protocol }

/-- `HttpRequest()`: the string members default-construct empty and the map
empty; the constructor body calls `setMethod(HTTP_METHOD_GET)`, which
overwrites the (otherwise indeterminate) `mMethod`. -/
def HttpRequest.init : HttpRequest :=
  HttpRequest.setMethod ⟨"", "", "", .HTTP_METHOD_GET, []⟩ .HTTP_METHOD_GET

/-- `HttpRequest::addHeadValue(field, value)`: `mHeadField[field] = value`. -/
def HttpRequest.addHeadValue (r : HttpRequest) (field value : String) : HttpRequest :=
  { r with mHeadField := hmapInsert r.mHeadField field value }

/-- `HttpRequest::setHost(host)`. -/
def HttpRequest.setHost (r : HttpRequest) (host : String) : HttpRequest :=
  r.addHeadValue "Host" host

/-- `HttpRequest::setUrl(url)`. -/
def HttpRequest.setUrl (r : HttpRequest) (url : String) : HttpRequest :=
  { r with mUrl := url }

/-- `HttpRequest::setCookie(v)`. -/
def HttpRequest.setCookie (r : HttpRequest) (v : String) : HttpRequest :=
  r.addHeadValue "Cookie" v

/-- `HttpRequest::setContentType(v)`. -/
def HttpRequest.setContentType (r : HttpRequest) (v : String) : HttpRequest :=
  r.addHeadValue "Content-Type" v

/-- `HttpRequest::setQuery(query)`. -/
def HttpRequest.setQuery (r : HttpRequest) (query : String) : HttpRequest :=
  { r with mQuery := query }

/-- `HttpRequest::setBody(body)`: sets header `Content-Length` to the decimal
byte length of `body`, then stores `body`. -/
def HttpRequest.setBody (r : HttpRequest) (body : String) : HttpRequest :=
  { r.addHeadValue "Content-Length" (toString body.length) with mBody := body }

/-- The request line built by the first part of `HttpRequest::getResult`:
method token under the range guard, a space, the url, `?query` when the
query is non-empty, then `" HTTP/1.1\r\n"`. -/
def HttpRequest.requestLine (r : HttpRequest) : String :=
  (if methodGuard r.mMethod then HttpMethodString.getD r.mMethod.underlying "" else "")
    ++ " " ++ r.mUrl
    ++ (if r.mQuery.isEmpty then "" else "?" ++ r.mQuery)
    ++ " HTTP/1.1\r\n"

/-- `HttpRequest::getResult()`: the request line, each header entry as
`Field: Value\r\n`, a blank line, then the body when non-empty. -/
def HttpRequest.getResult (r : HttpRequest) : String :=
  r.requestLine ++ headerLines r.mHeadField ++ "\r\n"
    ++ (if r.mBody.isEmpty then "" else r.mBody)

/-- `class HttpResponse`: its three data members; the `enum class status`
value is modelled by its underlying numeric value (`status::ok = 200`). -/
structure HttpResponse where
  mStatus : Nat
  mHeadField : List (String × String)
  mBody : String
deriving DecidableEq

/-- `HttpResponse::addHeadValue(field, value)`: `mHeadField[field] = value`. -/
def HttpResponse.addHeadValue (r : HttpResponse) (field value : String) : HttpResponse :=
  { r with mHeadField := hmapInsert r.mHeadField field value }

/-- `HttpResponse(status state = status::ok, bool isKeepAlive = true)`:
stores the status and seeds the `Connection` header with `"Keep-Alive"` or
`"Close"`. -/
def HttpResponse.init (state : Nat) (isKeepAlive : Bool) : HttpResponse :=
  let r : HttpResponse := ⟨state, [], ""⟩
  if isKeepAlive then r.addHeadValue "Connection" "Keep-Alive"
  else r.addHeadValue "Connection" "Close"

/-- `HttpResponse::setStatus(status)`. -/
def HttpResponse.setStatus (r : HttpResponse) (status : Nat) : HttpResponse :=
  { r with mStatus := status }

/-- `HttpResponse::setContentType(v)`. -/
def HttpResponse.setContentType (r : HttpResponse) (v : String) : HttpResponse :=
  r.addHeadValue "Content-Type" v

/-- `HttpResponse::setBody(body)`: sets header `Content-Length` to the decimal
byte length of `body`, then stores `body`. -/
def HttpResponse.setBody (r : HttpResponse) (body : String) : HttpResponse :=
  { r.addHeadValue "Content-Length" (toString body.length) with mBody := body }

/-- The case arms of the `switch` in `HttpResponse::toStatusString`, as
(code, reason) pairs in source order. -/
def statusReasonTable : List (Nat × String) := [
  (100, "Continue"), (101, "Switching Protocols"), (102, "Processing"),
  (200, "OK"), (201, "Created"), (202, "Accepted"),
  (203, "Non-Authoritative Information"), (204, "No Content"),
  (205, "Reset Content"), (206, "Partial Content"), (207, "Multi-Status"),
  (208, "Already Reported"), (226, "IM Used"),
  (300, "Multiple Choices"), (301, "Moved Permanently"), (302, "Found"),
  (303, "See Other"), (304, "Not Modified"), (305, "Use Proxy"),
  (307, "Temporary Redirect"), (308, "Permanent Redirect"),
  (400, "Bad Request"), (401, "Unauthorized"), (402, "Payment Required"),
  (403, "Forbidden"), (404, "Not Found"), (405, "Method Not Allowed"),
  (406, "Not Acceptable"), (407, "Proxy Authentication Required"),
  (408, "Request Timeout"), (409, "Conflict"), (410, "Gone"),
  (411, "Length Required"), (412, "Precondition Failed"),
  (413, "Payload Too Large"), (414, "URI Too Long"),
  (415, "Unsupported Media Type"), (416, "Range Not Satisfiable"),
  (417, "Expectation Failed"), (421, "Misdirected Request"),
  (422, "Unprocessable Entity"), (423, "Locked"), (424, "Failed Dependency"),
  (426, "Upgrade Required"), (428, "Precondition Required"),
  (429, "Too Many Requests"), (431, "Request Header Fields Too Large"),
  (444, "Connection Closed Without Response"),
  (451, "Unavailable For Legal Reasons"), (499, "Client Closed Request"),
  (500, "Internal Server Error"), (501, "Not Implemented"),
  (502, "Bad Gateway"), (503, "Service Unavailable"),
  (504, "Gateway Timeout"), (505, "HTTP Version Not Supported"),
  (506, "Variant Also Negotiates"), (507, "Insufficient Storage"),
  (508, "Loop Detected"), (510, "Not Extended"),
  (511, "Network Authentication Required"),
  (599, "Network Connect Timeout Error")]

/-- A `switch` statement with `case c: return s;` arms: first-match lookup
in the case table, `none` when control reaches `default`. -/
def switchLookup : List (Nat × String) → Nat → Option String
  | [], _ => none
  | (c, s) :: rest, n => if n = c then some s else switchLookup rest n

/-- `HttpResponse::toStatusString()`: the `switch` over `mStatus`, falling
through to `"<unknown-status>"`. -/
def HttpResponse.toStatusString (r : HttpResponse) : String :=
  (switchLookup statusReasonTable r.mStatus).getD "<unknown-status>"

/-- The status line built by `HttpResponse::getResult`: `"HTTP/1.1 "`, the
numeric status in decimal (`std::to_string(static_cast<int>(mStatus))`), a
space, the reason phrase, `"\r\n"`. -/
def HttpResponse.statusLine (r : HttpResponse) : String :=
  "HTTP/1.1 " ++ toString r.mStatus ++ " " ++ r.toStatusString ++ "\r\n"

/-- `HttpResponse::getResult()`: the status line, each header entry as
`Field: Value\r\n`, a blank line, then the body when non-empty. -/
def HttpResponse.getResult (r : HttpResponse) : String :=
  r.statusLine ++ headerLines r.mHeadField ++ "\r\n"
    ++ (if r.mBody.isEmpty then "" else r.mBody)

/-- A call to one of `HttpRequest`'s mutating public methods. -/
inductive ReqOp where
  | opSetMethod (m : HTTP_METHOD)
  | opSetHost (host : String)
  | opSetUrl (url : String)
  | opSetCookie (v : String)
  | opSetContentType (v : String)
  | opSetQuery (q : String)
  | opSetBody (b : String)
  | opAddHeadValue (field value : String)

/-- Apply one `HttpRequest` method call to the object state. -/
def HttpRequest.applyOp (r : HttpRequest) : ReqOp → HttpRequest
  | .opSetMethod m => r.setMethod m
  | .opSetHost h => r.setHost h
  | .opSetUrl u => r.setUrl u
  | .opSetCookie v => r.setCookie v
  | .opSetContentType v => r.setContentType v
  | .opSetQuery q => r.setQuery q
  | .opSetBody b => r.setBody b
  | .opAddHeadValue f v => r.addHeadValue f v

/-- The state of a default-constructed `HttpRequest` after an arbitrary
sequence of public method calls. -/
def HttpRequest.run (ops : List ReqOp) : HttpRequest :=
  ops.foldl HttpRequest.applyOp HttpRequest.init

/-- A call to one of `HttpResponse`'s mutating public methods. -/
inductive RespOp where
  | opSetStatus (s : Nat)
  | opSetContentType (v : String)
  | opAddHeadValue (field value : String)
  | opSetBody (b : String)

/-- Apply one `HttpResponse` method call to the object state. -/
def HttpResponse.applyOp (r : HttpResponse) : RespOp → HttpResponse
  | .opSetStatus s => r.setStatus s
  | .opSetContentType v => r.setContentType v
  | .opAddHeadValue f v => r.addHeadValue f v
  | .opSetBody b => r.setBody b

/-- The state of an `HttpResponse` constructed with the given arguments
after an arbitrary sequence of public method calls. -/
def HttpResponse.run (state : Nat) (isKeepAlive : Bool) (ops : List RespOp) : HttpResponse :=
  ops.foldl HttpResponse.applyOp (HttpResponse.init state isKeepAlive)

/-- A call to the `const` method `HttpQueryParameter::getResult`: the
returned string paired with the object state after the call (the method
writes no data member, so the post-state is the receiver). -/
def HttpQueryParameter.getResultCall (p : HttpQueryParameter) : String × HttpQueryParameter :=
  (p.getResult, p)

/-- A call to the `const` method `HttpRequest::getResult`: the returned
string paired with the object state after the call (the method writes only
its local `ret`, no data member). -/
def HttpRequest.getResultCall (r : HttpRequest) : String × HttpRequest :=
  (r.getResult, r)

/-- A call to the `const` method `HttpResponse::getResult`: the returned
string paired with the object state after the call (the method writes only
its local `ret`, no data member). -/
def HttpResponse.getResultCall (r : HttpResponse) : String × HttpResponse :=
  (r.getResult, r)

/-- Adding a batch of (field, value) pairs through repeated
`HttpRequest::addHeadValue` calls, in list order. -/
def HttpRequest.addHeaders (r : HttpRequest) (l : List (String × String)) : HttpRequest :=
  l.foldl (fun q p => q.addHeadValue p.1 p.2) r

/-- The `k=v` text of one query pair, as the spec describes it. -/
def pairText (p : String × String) : String :=
  p.1 ++ "=" ++ p.2

/-- Modelled from the spec's claimed output shape: the pieces joined by a
single `&` between consecutive pairs, none before the first. -/
def ampJoin : List String → String
  | [] => ""
  | [x] => x
  | x :: y :: rest => x ++ "&" ++ ampJoin (y :: rest)

/-- Adding a batch of (key, value) pairs through repeated
`HttpQueryParameter::add` calls, in list order. -/
def HttpQueryParameter.addAll (p : HttpQueryParameter) (l : List (String × String)) : HttpQueryParameter :=
  l.foldl (fun q kv => q.add kv.1 kv.2) p

/-- Representation invariant of the modelled `std::map`: keys strictly
sorted by the string order. -/
def KeySorted (l : List (String × String)) : Prop :=
  l.Pairwise (fun a b => a.1 < b.1)

/-- Number of entries of `l` whose key is `f`. -/
def keyCount (f : String) (l : List (String × String)) : Nat :=
  l.countP (fun p => p.1 == f)

theorem keyCount_nil (f : String) : keyCount f [] = 0 := rfl

theorem keyCount_cons (f : String) (p : String × String) (l : List (String × String)) :
    keyCount f (p :: l) = keyCount f l + if p.1 = f then 1 else 0 := by
  simp [keyCount, List.countP_cons]

theorem keyCount_eq_zero {f : String} {l : List (String × String)} :
    keyCount f l = 0 ↔ ∀ p ∈ l, p.1 ≠ f := by
  simp [keyCount, List.countP_eq_zero]

theorem mem_hmapInsert {l : List (String × String)} {f v : String} {p : String × String}
    (h : p ∈ hmapInsert l f v) : p = (f, v) ∨ p ∈ l := by
  induction l with
  | nil =>
    simp only [hmapInsert, List.mem_singleton] at h
    exact Or.inl h
  | cons kw rest ih =>
    obtain ⟨k, w⟩ := kw
    by_cases h1 : f < k
    · simp only [hmapInsert, if_pos h1, List.mem_cons] at h
      rcases h with h | h | h
      · exact Or.inl h
      · exact Or.inr (by simp [h])
      · exact Or.inr (by simp [h])
    · by_cases h2 : f = k
      · simp only [hmapInsert, if_neg h1, if_pos h2, List.mem_cons] at h
        rcases h with h | h
        · exact Or.inl h
        · exact Or.inr (by simp [h])
      · simp only [hmapInsert, if_neg h1, if_neg h2, List.mem_cons] at h
        rcases h with h | h
        · exact Or.inr (by simp [h])
        · rcases ih h with h' | h'
          · exact Or.inl h'
          · exact Or.inr (by simp [h'])

theorem self_mem_hmapInsert (l : List (String × String)) (f v : String) :
    (f, v) ∈ hmapInsert l f v := by
  induction l with
  | nil => simp [hmapInsert]
  | cons kw rest ih =>
    obtain ⟨k, w⟩ := kw
    by_cases h1 : f < k
    · simp only [hmapInsert, if_pos h1]
      exact List.mem_cons_self _ _
    · by_cases h2 : f = k
      · simp only [hmapInsert, if_neg h1, if_pos h2]
        exact List.mem_cons_self _ _
      · simp only [hmapInsert, if_neg h1, if_neg h2]
        exact List.mem_cons_of_mem _ ih

theorem hmapInsert_keySorted {l : List (String × String)} (hs : KeySorted l)
    (f v : String) : KeySorted (hmapInsert l f v) := by
  induction l with
  | nil => simp [hmapInsert, KeySorted]
  | cons kw rest ih =>
    obtain ⟨k, w⟩ := kw
    rw [KeySorted, List.pairwise_cons] at hs
    obtain ⟨hk, hrest⟩ := hs
    by_cases h1 : f < k
    · rw [KeySorted]
      simp only [hmapInsert, if_pos h1]
      refine List.Pairwise.cons ?_ ?_
      · intro q hq
        rcases List.mem_cons.mp hq with h | h
        · subst h; exact h1
        · exact lt_trans h1 (hk q h)
      · exact List.Pairwise.cons hk hrest
    · by_cases h2 : f = k
      · rw [KeySorted]
        simp only [hmapInsert, if_neg h1, if_pos h2]
        refine List.Pairwise.cons ?_ hrest
        intro q hq
        subst h2
        exact hk q hq
      · have hkf : k < f := by
          rcases lt_trichotomy f k with h | h | h
          · exact absurd h h1
          · exact absurd h h2
          · exact h
        rw [KeySorted]
        simp only [hmapInsert, if_neg h1, if_neg h2]
        refine List.Pairwise.cons ?_ (ih hrest)
        intro q hq
        rcases mem_hmapInsert hq with h | h
        · subst h; exact hkf
        · exact hk q h

theorem keyCount_hmapInsert_self {l : List (String × String)} (hs : KeySorted l)
    (f v : String) : keyCount f (hmapInsert l f v) = 1 := by
  induction l with
  | nil => simp [hmapInsert, keyCount_cons, keyCount_nil]
  | cons kw rest ih =>
    obtain ⟨k, w⟩ := kw
    rw [KeySorted, List.pairwise_cons] at hs
    obtain ⟨hk, hrest⟩ := hs
    by_cases h1 : f < k
    · simp only [hmapInsert, if_pos h1]
      rw [keyCount_cons, keyCount_cons]
      have hz : keyCount f rest = 0 := by
        rw [keyCount_eq_zero]
        intro p hp
        exact ne_of_gt (lt_trans h1 (hk p hp))
      simp [hz, ne_of_gt h1]
    · by_cases h2 : f = k
      · simp only [hmapInsert, if_neg h1, if_pos h2]
        rw [keyCount_cons]
        have hz : keyCount f rest = 0 := by
          rw [keyCount_eq_zero]
          intro p hp
          subst h2
          exact ne_of_gt (hk p hp)
        simp [hz]
      · have hkf : k < f := by
          rcases lt_trichotomy f k with h | h | h
          · exact absurd h h1
          · exact absurd h h2
          · exact h
        simp only [hmapInsert, if_neg h1, if_neg h2]
        rw [keyCount_cons]
        simp [ih hrest, ne_of_lt hkf]

theorem keyCount_hmapInsert_other {f g : String} (hgf : g ≠ f)
    (l : List (String × String)) (v : String) :
    keyCount g (hmapInsert l f v) = keyCount g l := by
  induction l with
  | nil => simp [hmapInsert, keyCount_cons, keyCount_nil, Ne.symm hgf]
  | cons kw rest ih =>
    obtain ⟨k, w⟩ := kw
    by_cases h1 : f < k
    · simp only [hmapInsert, if_pos h1]
      simp [keyCount_cons, Ne.symm hgf]
    · by_cases h2 : f = k
      · simp only [hmapInsert, if_neg h1, if_pos h2]
        subst h2
        simp [keyCount_cons, Ne.symm hgf]
      · simp only [hmapInsert, if_neg h1, if_neg h2]
        simp [keyCount_cons, ih]

theorem headerLines_append (a b : List (String × String)) :
    headerLines (a ++ b) = headerLines a ++ headerLines b := by
  induction a with
  | nil => simp [headerLines]
  | cons kw rest ih =>
    obtain ⟨k, w⟩ := kw
    show headerLines ((k, w) :: (rest ++ b)) = headerLines ((k, w) :: rest) ++ headerLines b
    rw [headerLines, headerLines, ih]
    simp [String.append_assoc]

theorem keyCount_one_split {l : List (String × String)} {f w : String}
    (hc : keyCount f l = 1) (hm : (f, w) ∈ l) :
    ∃ pre post, l = pre ++ (f, w) :: post
      ∧ (∀ p ∈ pre, p.1 ≠ f) ∧ (∀ p ∈ post, p.1 ≠ f) := by
  induction l with
  | nil => cases hm
  | cons kv rest ih =>
    obtain ⟨k, v⟩ := kv
    rw [keyCount_cons] at hc
    by_cases hk : k = f
    · have hz : keyCount f rest = 0 := by
        rw [if_pos hk] at hc
        omega
      have hrest : ∀ p ∈ rest, p.1 ≠ f := keyCount_eq_zero.mp hz
      rcases List.mem_cons.mp hm with h | h
      · refine ⟨[], rest, ?_, by simp, hrest⟩
        simp [← h]
      · exact absurd rfl (hrest (f, w) h)
    · rw [if_neg hk] at hc
      simp only [Nat.add_zero] at hc
      have hm' : (f, w) ∈ rest := by
        rcases List.mem_cons.mp hm with h | h
        · exact absurd (congrArg Prod.fst h).symm hk
        · exact h
      obtain ⟨pre, post, heq, hpre, hpost⟩ := ih hc hm'
      refine ⟨(k, v) :: pre, post, by simp [heq], ?_, hpost⟩
      intro p hp
      rcases List.mem_cons.mp hp with h | h
      · simp [h, hk]
      · exact hpre p h

theorem if_isEmpty_self (s : String) : (if s.isEmpty then "" else s) = s := by
  by_cases h : s.isEmpty
  · rw [if_pos h, (String.isEmpty_iff s).mp h]
  · rw [if_neg h]

/-- C5: a freshly constructed `HttpRequest` with no setter called serializes
to exactly `"GET  HTTP/1.1\r\n\r\n"`: method token `GET`, a space, empty
url, a space, the `HTTP/1.1` suffix, no header lines, empty body. -/
theorem c5_default_request_bytes :
    HttpRequest.init.getResult = "GET  HTTP/1.1\r\n\r\n" := by
  rfl

/-- C6: a freshly constructed `HttpResponse` with the default arguments
(status `ok` = 200, keep-alive true) serializes to exactly
`"HTTP/1.1 200 OK\r\nConnection: Keep-Alive\r\n\r\n"`, and constructing
with keep-alive false instead yields the `Connection` value `"Close"`. -/
theorem c6_default_response_bytes :
    (HttpResponse.init 200 true).getResult
        = "HTTP/1.1 200 OK\r\nConnection: Keep-Alive\r\n\r\n"
      ∧ (HttpResponse.init 200 false).getResult
        = "HTTP/1.1 200 OK\r\nConnection: Close\r\n\r\n" := by
  exact ⟨rfl, rfl⟩

theorem applyOp_keySorted {r : HttpRequest} (hs : KeySorted r.mHeadField)
    (op : ReqOp) : KeySorted (r.applyOp op).mHeadField := by
  cases op with
  | opSetMethod m => exact hs
  | opSetHost h => exact hmapInsert_keySorted hs _ _
  | opSetUrl u => exact hs
  | opSetCookie v => exact hmapInsert_keySorted hs _ _
  | opSetContentType v => exact hmapInsert_keySorted hs _ _
  | opSetQuery q => exact hs
  | opSetBody b => exact hmapInsert_keySorted hs _ _
  | opAddHeadValue f v => exact hmapInsert_keySorted hs _ _

theorem foldl_applyOp_keySorted (ops : List ReqOp) :
    ∀ r : HttpRequest, KeySorted r.mHeadField →
      KeySorted ((ops.foldl HttpRequest.applyOp r).mHeadField) := by
  induction ops with
  | nil => intro r hs; exact hs
  | cons op rest ih => intro r hs; exact ih _ (applyOp_keySorted hs op)

theorem run_keySorted (ops : List ReqOp) : KeySorted (HttpRequest.run ops).mHeadField :=
  foldl_applyOp_keySorted ops HttpRequest.init List.Pairwise.nil

theorem respInv_applyOp {r : HttpResponse}
    (hs : KeySorted r.mHeadField) (hc : keyCount "Connection" r.mHeadField = 1)
    (op : RespOp) :
    KeySorted (r.applyOp op).mHeadField
      ∧ keyCount "Connection" (r.applyOp op).mHeadField = 1 := by
  cases op with
  | opSetStatus s => exact ⟨hs, hc⟩
  | opSetContentType v =>
    exact ⟨hmapInsert_keySorted hs _ _,
      (keyCount_hmapInsert_other (by decide) _ _).trans hc⟩
  | opAddHeadValue f v =>
    refine ⟨hmapInsert_keySorted hs _ _, ?_⟩
    by_cases hf : f = "Connection"
    · subst hf
      exact keyCount_hmapInsert_self hs _ _
    · exact (keyCount_hmapInsert_other (Ne.symm hf) _ _).trans hc
  | opSetBody b =>
    exact ⟨hmapInsert_keySorted hs _ _,
      (keyCount_hmapInsert_other (by decide) _ _).trans hc⟩

theorem init_respInv (state : Nat) (ka : Bool) :
    KeySorted (HttpResponse.init state ka).mHeadField
      ∧ keyCount "Connection" (HttpResponse.init state ka).mHeadField = 1 := by
  cases ka
  · exact ⟨by simp [KeySorted, HttpResponse.init, HttpResponse.addHeadValue, hmapInsert],
      rfl⟩
  · exact ⟨by simp [KeySorted, HttpResponse.init, HttpResponse.addHeadValue, hmapInsert],
      rfl⟩

theorem run_respInv (state : Nat) (ka : Bool) (ops : List RespOp) :
    KeySorted (HttpResponse.run state ka ops).mHeadField
      ∧ keyCount "Connection" (HttpResponse.run state ka ops).mHeadField = 1 := by
  suffices h : ∀ (l : List RespOp) (r : HttpResponse),
      KeySorted r.mHeadField → keyCount "Connection" r.mHeadField = 1 →
      KeySorted ((l.foldl HttpResponse.applyOp r).mHeadField)
        ∧ keyCount "Connection" ((l.foldl HttpResponse.applyOp r).mHeadField) = 1 by
    obtain ⟨h1, h2⟩ := init_respInv state ka
    exact h ops _ h1 h2
  intro l
  induction l with
  | nil => intro r h1 h2; exact ⟨h1, h2⟩
  | cons op rest ih =>
    intro r h1 h2
    obtain ⟨h1', h2'⟩ := respInv_applyOp h1 h2 op
    exact ih _ h1' h2'

theorem keyCount_one_mem {f : String} {l : List (String × String)}
    (hc : keyCount f l = 1) : ∃ v, (f, v) ∈ l := by
  induction l with
  | nil => simp [keyCount_nil] at hc
  | cons p rest ih =>
    rw [keyCount_cons] at hc
    by_cases hp : p.1 = f
    · refine ⟨p.2, ?_⟩
      rw [← hp]
      simp
    · rw [if_neg hp, Nat.add_zero] at hc
      obtain ⟨v, hv⟩ := ih hc
      exact ⟨v, List.mem_cons_of_mem _ hv⟩

theorem switchLookup_eq_none {l : List (Nat × String)} {n : Nat}
    (h : n ∉ l.map Prod.fst) : switchLookup l n = none := by
  induction l with
  | nil => rfl
  | cons p rest ih =>
    have hne : n ≠ p.1 := by
      intro he
      exact h (by simp [he])
    have hrest : n ∉ rest.map Prod.fst := by
      intro hr
      exact h (by simp [hr])
    obtain ⟨c, s⟩ := p
    show (if n = c then some s else switchLookup rest n) = none
    rw [if_neg hne]
    exact ih hrest

/-- C2: after `setBody(b)` on any reachable `HttpRequest` or `HttpResponse`
state (including states where `setBody` was already called), the header map
holds exactly one `Content-Length` entry, its value is the decimal byte
count of `b`, and `getResult()` emits that single header line and ends with
the body `b` verbatim after the blank line. -/
theorem c2_setBody_content_length (ops : List ReqOp) (state : Nat)
    (isKeepAlive : Bool) (rops : List RespOp) (b : String) :
    (∃ pre post,
      ((HttpRequest.run ops).setBody b).mHeadField
          = pre ++ ("Content-Length", toString b.length) :: post
        ∧ (∀ p ∈ pre, p.1 ≠ "Content-Length")
        ∧ (∀ p ∈ post, p.1 ≠ "Content-Length")
        ∧ ((HttpRequest.run ops).setBody b).getResult
            = ((HttpRequest.run ops).setBody b).requestLine
              ++ headerLines pre
              ++ ("Content-Length" ++ ": " ++ toString b.length ++ "\r\n")
              ++ headerLines post
              ++ "\r\n" ++ b)
    ∧ (∃ pre post,
      ((HttpResponse.run state isKeepAlive rops).setBody b).mHeadField
          = pre ++ ("Content-Length", toString b.length) :: post
        ∧ (∀ p ∈ pre, p.1 ≠ "Content-Length")
        ∧ (∀ p ∈ post, p.1 ≠ "Content-Length")
        ∧ ((HttpResponse.run state isKeepAlive rops).setBody b).getResult
            = ((HttpResponse.run state isKeepAlive rops).setBody b).statusLine
              ++ headerLines pre
              ++ ("Content-Length" ++ ": " ++ toString b.length ++ "\r\n")
              ++ headerLines post
              ++ "\r\n" ++ b) := by
  constructor
  · have hs : KeySorted (HttpRequest.run ops).mHeadField := run_keySorted ops
    have hc : keyCount "Content-Length" ((HttpRequest.run ops).setBody b).mHeadField = 1 :=
      keyCount_hmapInsert_self hs _ _
    have hm : ("Content-Length", toString b.length)
        ∈ ((HttpRequest.run ops).setBody b).mHeadField :=
      self_mem_hmapInsert _ _ _
    obtain ⟨pre, post, heq, hpre, hpost⟩ := keyCount_one_split hc hm
    refine ⟨pre, post, heq, hpre, hpost, ?_⟩
    simp only [HttpRequest.getResult]
    rw [heq, headerLines_append]
    rw [show ((HttpRequest.run ops).setBody b).mBody = b from rfl, if_isEmpty_self]
    simp only [headerLines]
    simp [String.append_assoc]
  · have hs : KeySorted (HttpResponse.run state isKeepAlive rops).mHeadField :=
      (run_respInv state isKeepAlive rops).1
    have hc : keyCount "Content-Length"
        ((HttpResponse.run state isKeepAlive rops).setBody b).mHeadField = 1 :=
      keyCount_hmapInsert_self hs _ _
    have hm : ("Content-Length", toString b.length)
        ∈ ((HttpResponse.run state isKeepAlive rops).setBody b).mHeadField :=
      self_mem_hmapInsert _ _ _
    obtain ⟨pre, post, heq, hpre, hpost⟩ := keyCount_one_split hc hm
    refine ⟨pre, post, heq, hpre, hpost, ?_⟩
    simp only [HttpResponse.getResult]
    rw [heq, headerLines_append]
    rw [show ((HttpResponse.run state isKeepAlive rops).setBody b).mBody = b from rfl,
      if_isEmpty_self]
    simp only [headerLines]
    simp [String.append_assoc]

/-- C4: `addHeadValue(k, v1)` then `addHeadValue(k, v2)` on any reachable
`HttpRequest` or `HttpResponse` state leaves exactly one header entry for
key `k`, with value `v2`, and `getResult()` emits exactly one `k: v2` line
(last-write-wins). -/
theorem c4_addHeadValue_last_write_wins (ops : List ReqOp) (state : Nat)
    (isKeepAlive : Bool) (rops : List RespOp) (k v1 v2 : String) :
    (∃ pre post,
      (((HttpRequest.run ops).addHeadValue k v1).addHeadValue k v2).mHeadField
          = pre ++ (k, v2) :: post
        ∧ (∀ p ∈ pre, p.1 ≠ k) ∧ (∀ p ∈ post, p.1 ≠ k)
        ∧ (((HttpRequest.run ops).addHeadValue k v1).addHeadValue k v2).getResult
            = (((HttpRequest.run ops).addHeadValue k v1).addHeadValue k v2).requestLine
              ++ headerLines pre ++ (k ++ ": " ++ v2 ++ "\r\n") ++ headerLines post
              ++ "\r\n"
              ++ (if (((HttpRequest.run ops).addHeadValue k v1).addHeadValue k v2).mBody.isEmpty
                  then ""
                  else (((HttpRequest.run ops).addHeadValue k v1).addHeadValue k v2).mBody))
    ∧ (∃ pre post,
      (((HttpResponse.run state isKeepAlive rops).addHeadValue k v1).addHeadValue k v2).mHeadField
          = pre ++ (k, v2) :: post
        ∧ (∀ p ∈ pre, p.1 ≠ k) ∧ (∀ p ∈ post, p.1 ≠ k)
        ∧ (((HttpResponse.run state isKeepAlive rops).addHeadValue k v1).addHeadValue k v2).getResult
            = (((HttpResponse.run state isKeepAlive rops).addHeadValue k v1).addHeadValue k v2).statusLine
              ++ headerLines pre ++ (k ++ ": " ++ v2 ++ "\r\n") ++ headerLines post
              ++ "\r\n"
              ++ (if (((HttpResponse.run state isKeepAlive rops).addHeadValue k v1).addHeadValue k v2).mBody.isEmpty
                  then ""
                  else (((HttpResponse.run state isKeepAlive rops).addHeadValue k v1).addHeadValue k v2).mBody)) := by
  constructor
  · have hs1 : KeySorted ((HttpRequest.run ops).addHeadValue k v1).mHeadField :=
      hmapInsert_keySorted (run_keySorted ops) _ _
    have hc : keyCount k
        (((HttpRequest.run ops).addHeadValue k v1).addHeadValue k v2).mHeadField = 1 :=
      keyCount_hmapInsert_self hs1 _ _
    have hm : (k, v2)
        ∈ (((HttpRequest.run ops).addHeadValue k v1).addHeadValue k v2).mHeadField :=
      self_mem_hmapInsert _ _ _
    obtain ⟨pre, post, heq, hpre, hpost⟩ := keyCount_one_split hc hm
    refine ⟨pre, post, heq, hpre, hpost, ?_⟩
    simp only [HttpRequest.getResult]
    rw [heq, headerLines_append]
    simp only [headerLines]
    simp [String.append_assoc]
  · obtain ⟨hs0, -⟩ := run_respInv state isKeepAlive rops
    have hs1 : KeySorted ((HttpResponse.run state isKeepAlive rops).addHeadValue k v1).mHeadField :=
      hmapInsert_keySorted hs0 _ _
    have hc : keyCount k
        (((HttpResponse.run state isKeepAlive rops).addHeadValue k v1).addHeadValue k v2).mHeadField = 1 :=
      keyCount_hmapInsert_self hs1 _ _
    have hm : (k, v2)
        ∈ (((HttpResponse.run state isKeepAlive rops).addHeadValue k v1).addHeadValue k v2).mHeadField :=
      self_mem_hmapInsert _ _ _
    obtain ⟨pre, post, heq, hpre, hpost⟩ := keyCount_one_split hc hm
    refine ⟨pre, post, heq, hpre, hpost, ?_⟩
    simp only [HttpResponse.getResult]
    rw [heq, headerLines_append]
    simp only [headerLines]
    simp [String.append_assoc]

/-- C10: every reachable `HttpResponse` state keeps exactly one
`"Connection"` entry in its header map (seeded at construction, never
removed, only overwritten), so every `getResult()` output contains exactly
one `Connection: value\r\n` header line. -/
theorem c10_connection_header_always_once (state : Nat) (isKeepAlive : Bool)
    (ops : List RespOp) :
    ∃ value pre post,
      (HttpResponse.run state isKeepAlive ops).mHeadField
          = pre ++ ("Connection", value) :: post
        ∧ (∀ p ∈ pre, p.1 ≠ "Connection") ∧ (∀ p ∈ post, p.1 ≠ "Connection")
        ∧ (HttpResponse.run state isKeepAlive ops).getResult
            = (HttpResponse.run state isKeepAlive ops).statusLine
              ++ headerLines pre ++ ("Connection" ++ ": " ++ value ++ "\r\n")
              ++ headerLines post ++ "\r\n"
              ++ (if (HttpResponse.run state isKeepAlive ops).mBody.isEmpty then ""
                  else (HttpResponse.run state isKeepAlive ops).mBody) := by
  obtain ⟨hs, hc⟩ := run_respInv state isKeepAlive ops
  obtain ⟨value, hm⟩ := keyCount_one_mem hc
  obtain ⟨pre, post, heq, hpre, hpost⟩ := keyCount_one_split hc hm
  refine ⟨value, pre, post, heq, hpre, hpost, ?_⟩
  simp only [HttpResponse.getResult]
  rw [heq, headerLines_append]
  simp only [headerLines]
  simp [String.append_assoc]

/-- C7: for every numeric status not in the reason table, `getResult()` does
not fail: the status line carries the number in decimal followed by the
fixed placeholder `"<unknown-status>"`, and serialization proceeds
normally. -/
theorem c7_unknown_status_placeholder (n : Nat)
    (h : n ∉ statusReasonTable.map Prod.fst)
    (r : HttpResponse) (hr : r.mStatus = n) :
    r.toStatusString = "<unknown-status>"
      ∧ r.getResult
          = "HTTP/1.1 " ++ toString n ++ " " ++ "<unknown-status>" ++ "\r\n"
            ++ headerLines r.mHeadField ++ "\r\n"
            ++ (if r.mBody.isEmpty then "" else r.mBody) := by
  have ht : r.toStatusString = "<unknown-status>" := by
    simp only [HttpResponse.toStatusString, hr, switchLookup_eq_none h, Option.getD_none]
  refine ⟨ht, ?_⟩
  simp only [HttpResponse.getResult, HttpResponse.statusLine, ht, hr]

/-- Witness for C7 at the concrete unmapped status 999. -/
theorem c7_unknown_status_placeholder_witness :
    (999 ∉ statusReasonTable.map Prod.fst)
      ∧ (HttpResponse.init 999 true).mStatus = 999
      ∧ ((HttpResponse.init 999 true).toStatusString = "<unknown-status>"
        ∧ (HttpResponse.init 999 true).getResult
            = "HTTP/1.1 " ++ toString 999 ++ " " ++ "<unknown-status>" ++ "\r\n"
              ++ headerLines (HttpResponse.init 999 true).mHeadField ++ "\r\n"
              ++ (if (HttpResponse.init 999 true).mBody.isEmpty then ""
                  else (HttpResponse.init 999 true).mBody)) :=
  ⟨by decide, rfl,
    c7_unknown_status_placeholder 999 (by decide) (HttpResponse.init 999 true) rfl⟩

/-- C1: the claim says every `m` in the five-value enumeration, including
`HEAD`, satisfies `setMethod`'s runtime assertion. The code's assertion is
the strict comparison `mMethod > HTTP_METHOD_HEAD`, so it fails exactly at
`HEAD` while the other four methods pass — even though `getResult`'s own
guard (`>=`) and the method-string table treat `HEAD` as a valid method,
serializing it as `"HEAD"`. -/
theorem c1_setMethod_assertion_rejects_head :
    setMethodAssertion .HTTP_METHOD_HEAD = false
      ∧ setMethodAssertion .HTTP_METHOD_GET = true
      ∧ setMethodAssertion .HTTP_METHOD_POST = true
      ∧ setMethodAssertion .HTTP_METHOD_PUT = true
      ∧ setMethodAssertion .HTTP_METHOD_DELETE = true
      ∧ methodGuard .HTTP_METHOD_HEAD = true
      ∧ (HttpRequest.init.setMethod .HTTP_METHOD_HEAD).getResult
          = "HEAD  HTTP/1.1\r\n\r\n" :=
  ⟨rfl, rfl, rfl, rfl, rfl, rfl, rfl⟩

theorem add_mParameter_ne_empty (p : HttpQueryParameter) (k v : String) :
    (p.add k v).mParameter ≠ "" := by
  intro h
  have hl := congrArg String.length h
  simp only [HttpQueryParameter.add, String.length_append] at hl
  have h1 : ("=" : String).length = 1 := rfl
  have h0 : ("" : String).length = 0 := rfl
  rw [h1, h0] at hl
  omega

theorem ampJoin_glue (s t : String) (xs : List String) :
    ampJoin ((s ++ "&" ++ t) :: xs) = s ++ "&" ++ ampJoin (t :: xs) := by
  cases xs with
  | nil => rfl
  | cons z zs =>
    show s ++ "&" ++ t ++ "&" ++ ampJoin (z :: zs)
        = s ++ "&" ++ (t ++ "&" ++ ampJoin (z :: zs))
    simp [String.append_assoc]

theorem addAll_from (l : List (String × String)) :
    ∀ s : String, s ≠ "" →
      (HttpQueryParameter.addAll ⟨s⟩ l).mParameter = ampJoin (s :: l.map pairText) := by
  induction l with
  | nil =>
    intro s hs
    rfl
  | cons kv rest ih =>
    intro s hs
    have hemp : s.isEmpty = false := by
      cases hb : s.isEmpty
      · rfl
      · exact absurd ((String.isEmpty_iff s).mp hb) hs
    have hadd : HttpQueryParameter.add ⟨s⟩ kv.1 kv.2 = ⟨s ++ "&" ++ pairText kv⟩ := by
      simp [HttpQueryParameter.add, hemp, pairText, String.append_assoc]
    have hne : (s ++ "&" ++ pairText kv) ≠ "" := by
      have h2 := add_mParameter_ne_empty ⟨s⟩ kv.1 kv.2
      rw [hadd] at h2
      exact h2
    show (HttpQueryParameter.addAll (HttpQueryParameter.add ⟨s⟩ kv.1 kv.2) rest).mParameter
        = ampJoin (s :: (kv :: rest).map pairText)
    rw [hadd, ih _ hne]
    rw [List.map_cons, ampJoin_glue]
    rfl

/-- C8: on a fresh `HttpQueryParameter`, adding the pairs of `l` in order
and reading `getResult()` yields exactly the `k=v` texts joined by single
`&` separators with none before the first; in particular
`add("a","1")` then `add("b","2")` yields `"a=1&b=2"`. -/
theorem c8_query_pairs_joined (l : List (String × String)) :
    (HttpQueryParameter.init.addAll l).getResult = ampJoin (l.map pairText)
      ∧ ((HttpQueryParameter.init.add "a" "1").add "b" "2").getResult = "a=1&b=2" := by
  constructor
  · cases l with
    | nil => rfl
    | cons kv rest =>
      have hadd : HttpQueryParameter.add ⟨""⟩ kv.1 kv.2 = ⟨pairText kv⟩ := by
        simp [HttpQueryParameter.add, pairText,
          show ("" : String).isEmpty = true from rfl]
      have hne : pairText kv ≠ "" := by
        have h2 := add_mParameter_ne_empty ⟨""⟩ kv.1 kv.2
        rw [hadd] at h2
        exact h2
      show (HttpQueryParameter.addAll (HttpQueryParameter.add ⟨""⟩ kv.1 kv.2) rest).mParameter
          = ampJoin ((kv :: rest).map pairText)
      rw [hadd, addAll_from rest _ hne]
      rfl
  · rfl

/-- C9: on each of the three serializer classes, `getResult()` leaves the
object state unchanged (it is a `const` projection that writes no data
member), so two consecutive calls with no intervening setter return the
same string. -/
theorem c9_getResult_pure :
    ∀ (p : HttpQueryParameter) (r : HttpRequest) (s : HttpResponse),
      (p.getResultCall.2 = p
        ∧ (p.getResultCall.2).getResultCall.1 = p.getResultCall.1)
      ∧ (r.getResultCall.2 = r
        ∧ (r.getResultCall.2).getResultCall.1 = r.getResultCall.1)
      ∧ (s.getResultCall.2 = s
        ∧ (s.getResultCall.2).getResultCall.1 = s.getResultCall.1) :=
  fun _ _ _ => ⟨⟨rfl, rfl⟩, ⟨rfl, rfl⟩, ⟨rfl, rfl⟩⟩

theorem hmapInsert_comm {f g : String} (hfg : f ≠ g) (v w : String) :
    ∀ l, hmapInsert (hmapInsert l f v) g w = hmapInsert (hmapInsert l g w) f v := by
  intro l
  induction l with
  | nil =>
    rcases lt_trichotomy f g with h | h | h
    · simp only [hmapInsert, if_pos h, if_neg (lt_asymm h), if_neg (ne_of_gt h)]
    · exact absurd h hfg
    · simp only [hmapInsert, if_pos h, if_neg (lt_asymm h), if_neg hfg]
  | cons ku rest ih =>
    obtain ⟨k, u⟩ := ku
    rcases lt_trichotomy f k with hfk | hfk | hfk
    · rcases lt_trichotomy g k with hgk | hgk | hgk
      · rcases lt_trichotomy f g with hfg2 | hfg2 | hfg2
        · simp only [hmapInsert, if_pos hfk, if_pos hgk, if_pos hfg2,
            if_neg (lt_asymm hfg2), if_neg (ne_of_gt hfg2)]
        · exact absurd hfg2 hfg
        · simp only [hmapInsert, if_pos hfk, if_pos hgk, if_pos hfg2,
            if_neg (lt_asymm hfg2), if_neg hfg]
      · subst hgk
        simp only [hmapInsert, if_pos hfk, if_neg (lt_asymm hfk), if_neg (ne_of_gt hfk),
          if_neg (lt_irrefl g), if_pos (rfl : g = g), if_true]
      · simp only [hmapInsert, if_pos hfk, if_neg (lt_asymm hgk), if_neg (ne_of_gt hgk),
          if_neg (lt_asymm (lt_trans hfk hgk)), if_neg (ne_of_gt (lt_trans hfk hgk))]
    · rcases lt_trichotomy g k with hgk | hgk | hgk
      · subst hfk
        simp only [hmapInsert, if_neg (lt_irrefl f), if_pos (rfl : f = f), if_pos hgk,
          if_neg (lt_asymm hgk), if_neg hfg, if_true]
      · exact absurd (hfk.trans hgk.symm) hfg
      · subst hfk
        simp only [hmapInsert, if_neg (lt_irrefl f), if_pos (rfl : f = f),
          if_neg (lt_asymm hgk), if_neg (ne_of_gt hgk), if_true]
    · rcases lt_trichotomy g k with hgk | hgk | hgk
      · simp only [hmapInsert, if_pos hgk, if_neg (lt_asymm hfk), if_neg (ne_of_gt hfk),
          if_neg (lt_asymm (lt_trans hgk hfk)), if_neg (ne_of_gt (lt_trans hgk hfk))]
      · subst hgk
        simp only [hmapInsert, if_neg (lt_irrefl g), if_pos (rfl : g = g),
          if_neg (lt_asymm hfk), if_neg hfg, if_true]
      · simp only [hmapInsert, if_neg (lt_asymm hfk), if_neg (ne_of_gt hfk),
          if_neg (lt_asymm hgk), if_neg (ne_of_gt hgk)]
        rw [ih]

theorem addHeaders_eq (l : List (String × String)) :
    ∀ r : HttpRequest, r.addHeaders l
      = { r with mHeadField := l.foldl (fun m q => hmapInsert m q.1 q.2) r.mHeadField } := by
  induction l with
  | nil => intro r; rfl
  | cons p l ih =>
    intro r
    show (r.addHeadValue p.1 p.2).addHeaders l
        = { r with mHeadField := (p :: l).foldl (fun m q => hmapInsert m q.1 q.2) r.mHeadField }
    rw [ih]
    rfl

/-- C3: header serialization order is independent of insertion order: adding
the same (field, value) pairs with distinct fields to two fresh
`HttpRequest` objects in two different orders makes `getResult()` produce
byte-identical output. -/
theorem c3_header_order_insertion_independent (l1 l2 : List (String × String))
    (hperm : l1.Perm l2) (hkeys : (l1.map Prod.fst).Nodup) :
    (HttpRequest.init.addHeaders l1).getResult
      = (HttpRequest.init.addHeaders l2).getResult := by
  have hpw : l1.Pairwise (fun a b => a.1 ≠ b.1) := by
    rw [List.Nodup, List.pairwise_map] at hkeys
    exact hkeys
  have hfold : l1.foldl (fun m q => hmapInsert m q.1 q.2) ([] : List (String × String))
      = l2.foldl (fun m q => hmapInsert m q.1 q.2) [] := by
    refine hperm.foldl_eq' ?_ []
    intro x hx y hy z
    by_cases hxy : x = y
    · subst hxy; rfl
    · have hk : x.1 ≠ y.1 := List.Pairwise.forall (fun a b h => Ne.symm h) hpw hx hy hxy
      exact hmapInsert_comm hk x.2 y.2 z
  rw [addHeaders_eq l1 HttpRequest.init, addHeaders_eq l2 HttpRequest.init]
  have hinit : HttpRequest.init.mHeadField = [] := rfl
  rw [hinit, hfold]

/-- Witness for C3 at two concrete two-element insertion orders. -/
theorem c3_header_order_insertion_independent_witness :
    ([(("b" : String), ("2" : String)), ("a", "1")]).Perm [("a", "1"), ("b", "2")]
      ∧ (([(("b" : String), ("2" : String)), ("a", "1")]).map Prod.fst).Nodup
      ∧ (HttpRequest.init.addHeaders [("b", "2"), ("a", "1")]).getResult
          = (HttpRequest.init.addHeaders [("a", "1"), ("b", "2")]).getResult :=
  ⟨List.Perm.swap ("a", "1") ("b", "2") [], by decide,
    c3_header_order_insertion_independent _ _
      (List.Perm.swap ("a", "1") ("b", "2") []) (by decide)⟩

end Brynet
